import Mathlib

/-!
Verification of the adaptive cognitive testing engine
(apps/api/src/services/adaptive_testing.py).

The Python service is shallowly embedded below.  Python float arithmetic is
modelled by the real numbers; the profile aggregator, whose arithmetic in the
scenarios of interest is exact, is modelled over the rationals so that its
example scenario is decidable.  Database reads are passed in explicitly: each
service method takes the rows its queries would return (the row for the
requested id as an `Option`, the full item table as a list), and returns the
values it would write.  Feedback strings and write-only audit fields
(reaction time, raw response payload) are carried through unchanged and not
interpreted.
-/

namespace AdaptiveTesting

noncomputable section

/-- Configuration constant MIN_ITEMS from adaptive_testing.py. -/
def MIN_ITEMS : Nat := 10

/-- Configuration constant MAX_ITEMS from adaptive_testing.py. -/
def MAX_ITEMS : Nat := 30

/-- Configuration constant TARGET_SE from adaptive_testing.py. -/
def TARGET_SE : ℝ := 0.3

/-- Configuration constant INITIAL_SE from adaptive_testing.py. -/
def INITIAL_SE : ℝ := 1.0

/-- Response payload: Python allows a scalar string or a list of strings,
both for the submitted response and for the item content's correct_answer. -/
inductive Answer where
  | scalar (s : String)
  | list (l : List String)

/-- Row of the cognitive_test_items table (the fields the service reads).
The opaque content payload is represented by the one field the service
inspects, content.correct_answer. -/
structure TestItem where
  id : String
  domain : String
  active : Bool
  minAgeMonths : Int
  maxAgeMonths : Int
  discrimination : ℝ
  difficulty : ℝ
  guessing : ℝ
  correctAnswer : Answer

/-- Row of the cognitive_assessments table (the fields the service reads). -/
structure Assessment where
  id : String
  childId : String
  domain : String
  abilityEstimate : ℝ
  standardError : ℝ
  itemsAdministered : Nat
  status : String

/-- Row of the cognitive_responses table joined with its cognitive_test_items
row, as returned by the previous-responses query in submit_response.  Only
the fields the service goes on to read are kept: item_id, is_correct and the
joined item. -/
structure ResponseRow where
  itemId : String
  isCorrect : Bool
  item : TestItem

/-- AdaptiveTestingService._probability_correct: probability of a correct
response under the 3PL IRT model, p = c + (1-c) / (1 + exp(-a*(theta-b))). -/
def probabilityCorrect (theta a b c : ℝ) : ℝ :=
  c + (1 - c) / (1 + Real.exp (-(a * (theta - b))))

/-- AdaptiveTestingService._item_information: Fisher information of an item
at ability theta. -/
def itemInformation (theta a b c : ℝ) : ℝ :=
  let p := probabilityCorrect theta a b c
  let q := 1 - p
  let dp := if c < 1 then a * (p - c) * (1 - p) / (1 - c) else 0
  if 0 < p ∧ 0 < q then dp ^ 2 / (p * q) else 0

/-- One pass over the responses inside the Newton-Raphson loop of
_estimate_ability, accumulating (numerator, denominator).  The Python loop
reads items positionally in step with responses, so the two lists are
traversed zipped; responses are represented by their is_correct flag, the
only field the estimator reads. -/
def newtonSums (responses : List Bool) (items : List TestItem) (theta : ℝ) : ℝ × ℝ :=
  (responses.zip items).foldl
    (fun acc ru =>
      let a := ru.2.discrimination
      let b := ru.2.difficulty
      let c := ru.2.guessing
      let p := probabilityCorrect theta a b c
      let q := 1 - p
      let u : ℝ := if ru.1 then 1 else 0
      let w := if c < 1 then a * (p - c) / (p * (1 - c)) else a
      (acc.1 + w * (u - p), acc.2 + w ^ 2 * p * q))
    (0, 0)

/-- The Newton-Raphson iteration of _estimate_ability: at most fuel steps
(the source runs range(20)), with the two early exits of the source: the
denominator-underflow guard and the small-delta convergence test. -/
def newtonLoop (responses : List Bool) (items : List TestItem) : Nat → ℝ → ℝ
  | 0, theta => theta
  | fuel + 1, theta =>
    let s := newtonSums responses items theta
    let numerator := s.1 - theta
    let denominator := s.2 + 1
    if |denominator| < 0.0001 then theta
    else
      let delta := numerator / denominator
      let theta' := theta + delta
      if |delta| < 0.001 then theta' else newtonLoop responses items fuel theta'

/-- Total information used for the standard error in _estimate_ability: the
sum of the administered items' Fisher information at theta, plus 1 for the
prior. -/
def totalInformation (theta : ℝ) (items : List TestItem) : ℝ :=
  (items.map (fun it =>
    itemInformation theta it.discrimination it.difficulty it.guessing)).sum + 1

/-- AdaptiveTestingService._estimate_ability: returns the pair
(theta_estimate, standard_error).  Empty response list returns the prior
with the initial standard error; otherwise Newton-Raphson with 20 steps of
fuel, clamping of theta to [-3, 3], and se = 1/sqrt(totalInformation) with
the fallback to INITIAL_SE for non-positive information. -/
def estimateAbility (responses : List Bool) (items : List TestItem)
    (priorTheta : ℝ) : ℝ × ℝ :=
  if responses.isEmpty then (priorTheta, INITIAL_SE)
  else
    let thetaRaw := newtonLoop responses items 20 priorTheta
    let theta := max (-3) (min 3 thetaRaw)
    let info := totalInformation theta items
    (theta, if 0 < info then 1 / Real.sqrt info else INITIAL_SE)

/-- One supabase query of _select_next_item over the cognitive_test_items
table: active items of the domain with min_age_months below or at
minAgeCutoff and max_age_months above or at maxAgeCutoff.  The first query
passes the child's age for both cutoffs; the retry widens them by 6 months
each way. -/
def bankQuery (table : List TestItem) (domain : String)
    (minAgeCutoff maxAgeCutoff : Int) : List TestItem :=
  table.filter (fun it =>
    it.domain == domain && it.active
      && decide (it.minAgeMonths ≤ minAgeCutoff)
      && decide (maxAgeCutoff ≤ it.maxAgeMonths))

/-- The maximum-information scan at the end of _select_next_item: best item
so far and its information, starting from (None, -1), replacing only on a
strictly larger information value, so the first encountered maximum wins. -/
def pickMaxInfo (theta : ℝ) (items : List TestItem) : Option TestItem :=
  (items.foldl
    (fun acc it =>
      let info := itemInformation theta it.discrimination it.difficulty it.guessing
      if acc.2 < info then (some it, info) else acc)
    ((none : Option TestItem), (-1 : ℝ))).1

/-- AdaptiveTestingService._select_next_item: query the item bank for
age-eligible active items of the domain, drop the used ids, retry with the
age window widened by 6 months if nothing is left, again dropping the used
ids, and return the remaining item of maximum information (None if the
candidate set is empty). -/
def selectNextItem (table : List TestItem) (theta : ℝ) (ageMonths : Int)
    (domain : String) (usedItemIds : List String) : Option TestItem :=
  let items := (bankQuery table domain ageMonths ageMonths).filter
    (fun it => !(usedItemIds.contains it.id))
  let candidates :=
    if items.isEmpty then
      (bankQuery table domain (ageMonths + 6) (ageMonths - 6)).filter
        (fun it => !(usedItemIds.contains it.id))
    else items
  if candidates.isEmpty then none
  else pickMaxInfo theta candidates

/-- Equality of two string lists as sets, set(response) == set(correct_answer)
in the source. -/
def sameElements (l m : List String) : Bool :=
  l.all (fun x => m.contains x) && m.all (fun x => l.contains x)

/-- The correctness check of submit_response: a list response is correct
exactly when the correct answer is also a list with the same elements as a
set; otherwise Python equality, under which a scalar equals a scalar with
the same string and never equals a list. -/
def answerCorrect (response correctAnswer : Answer) : Bool :=
  match response with
  | .list l =>
    match correctAnswer with
    | .list m => sameElements l m
    | .scalar _ => false
  | .scalar s =>
    match correctAnswer with
    | .scalar t => s == t
    | .list _ => false

/-- Gauss error function, the mathematical function computed by Python
math.erf, defined by its integral form. -/
def erf (x : ℝ) : ℝ :=
  2 / Real.sqrt Real.pi * ∫ t in (0:ℝ)..x, Real.exp (-(t ^ 2))

/-- AdaptiveTestingService._theta_to_percentile: the standard normal CDF
scaled to 0..100. -/
def thetaToPercentile (theta : ℝ) : ℝ :=
  50 * (1 + erf (theta / Real.sqrt 2))

/-- Python's int() conversion on a float: truncation toward zero. -/
def pyInt (x : ℝ) : ℤ :=
  if 0 ≤ x then Int.floor x else Int.ceil x

/-- Fields written by _complete_assessment to the finished session. -/
structure CompletionResult where
  rawScore : ℝ
  percentile : ℤ

/-- AdaptiveTestingService._complete_assessment: raw_score = (theta+3)/6*100
and percentile = int(_theta_to_percentile(theta)). -/
def completeAssessment (theta : ℝ) : CompletionResult :=
  { rawScore := (theta + 3) / 6 * 100
    percentile := pyInt (thetaToPercentile theta) }

/-- The two failures submit_response can raise while loading rows: the
ValueError for an unknown assessment id and the ValueError for an unknown
item id.  The source raises no other error. -/
inductive SubmitError where
  | assessmentNotFound
  | itemNotFound

/-- Everything submit_response computes and writes after its rows have
loaded: the inserted response row's snapshot fields, the session update
(new theta, se, items_administered := itemSequence), the stopping outcome
and, when stopping, the completion fields. -/
structure SubmitOutcome where
  isCorrect : Bool
  newTheta : ℝ
  newSe : ℝ
  thetaBefore : ℝ
  seBefore : ℝ
  itemSequence : Nat
  reactionTimeMs : Int
  isComplete : Bool
  stoppingReason : Option String
  nextItem : Option TestItem
  completion : Option CompletionResult

/-- Body of submit_response once the assessment and item rows have loaded
(source lines 250-342): correctness, re-estimation over the full history,
the appended response row and session update, and the stopping rules in
source order - max_items, then min_se (only reached past MIN_ITEMS, as in
the Python short-circuit), then the item selector over all answered ids
including the current one. -/
def submitBody (assessment : Assessment) (item : TestItem)
    (prevResponses : List ResponseRow) (ageMonths : Int) (itemTable : List TestItem)
    (itemId : String) (response : Answer) (reactionTimeMs : Int) : SubmitOutcome :=
  let isCorrect := answerCorrect response item.correctAnswer
  let allResponses := prevResponses.map (fun r => r.isCorrect) ++ [isCorrect]
  let allItems := prevResponses.map (fun r => r.item) ++ [item]
  let thetaBefore := assessment.abilityEstimate
  let seBefore := assessment.standardError
  let estimate := estimateAbility allResponses allItems thetaBefore
  let thetaAfter := estimate.1
  let seAfter := estimate.2
  let itemSequence := prevResponses.length + 1
  let firstStop : Option String :=
    if MAX_ITEMS ≤ itemSequence then some "max_items"
    else if MIN_ITEMS ≤ itemSequence then
      if seAfter < TARGET_SE then some "min_se" else none
    else none
  let selection : Option String × Option TestItem :=
    match firstStop with
    | some reason => (some reason, none)
    | none =>
      let usedIds := prevResponses.map (fun r => r.itemId) ++ [itemId]
      match selectNextItem itemTable thetaAfter ageMonths assessment.domain usedIds with
      | some it => (none, some it)
      | none => (some "no_items", none)
  let stoppingReason := selection.1
  let isComplete := stoppingReason.isSome
  { isCorrect := isCorrect
    newTheta := thetaAfter
    newSe := seAfter
    thetaBefore := thetaBefore
    seBefore := seBefore
    itemSequence := itemSequence
    reactionTimeMs := reactionTimeMs
    isComplete := isComplete
    stoppingReason := stoppingReason
    nextItem := selection.2
    completion := if isComplete then some (completeAssessment thetaAfter) else none }

/-- AdaptiveTestingService.submit_response.  The two row lookups are passed
in as the rows the queries would return; the body never reads the session's
status field, exactly as in the source. -/
def submitResponse (assessmentRow : Option Assessment) (itemRow : Option TestItem)
    (prevResponses : List ResponseRow) (ageMonths : Int) (itemTable : List TestItem)
    (itemId : String) (response : Answer) (reactionTimeMs : Int) :
    Except SubmitError SubmitOutcome :=
  match assessmentRow with
  | none => .error .assessmentNotFound
  | some assessment =>
    match itemRow with
    | none => .error .itemNotFound
    | some item =>
      .ok (submitBody assessment item prevResponses ageMonths itemTable
        itemId response reactionTimeMs)

/-- Stopping rule as the specification words it, in priority order: at or
past 30 items stop with max_items; else at or past 10 items with se below
0.3 stop with min_se; else stop with no_items exactly when the selector
returns nothing, and otherwise continue with the selected item.  The result
triple is (isComplete, stoppingReason, nextItem). -/
def stoppingRuleSpec (itemsAdministered : Nat) (se : ℝ)
    (selected : Option TestItem) : Bool × Option String × Option TestItem :=
  if 30 ≤ itemsAdministered then (true, some "max_items", none)
  else if 10 ≤ itemsAdministered ∧ se < 0.3 then (true, some "min_se", none)
  else
    match selected with
    | none => (true, some "no_items", none)
    | some it => (false, none, some it)

end

/-- Row of the cognitive_profiles table: the five per-domain scores, absent
until the domain's first completed assessment.  The aggregate arithmetic of
_recalculate_profile_aggregates is exact on the inputs of interest, so the
scores are modelled over the rationals to keep the aggregator decidable. -/
structure CognitiveProfile where
  mathScore : Option ℚ
  logicScore : Option ℚ
  verbalScore : Option ℚ
  spatialScore : Option ℚ
  memoryScore : Option ℚ

/-- The scores dictionary built by _recalculate_profile_aggregates: the
recorded per-domain scores in the source's fixed domain order. -/
def domainScores (p : CognitiveProfile) : List (String × ℚ) :=
  [("math", p.mathScore), ("logic", p.logicScore), ("verbal", p.verbalScore),
   ("spatial", p.spatialScore), ("memory", p.memoryScore)].filterMap
    (fun d => d.2.map (fun s => (d.1, s)))

/-- Insertion into a descending-sorted list, placing the new entry before
the first strictly smaller score, so equal scores keep their original
relative order. -/
def insertDescending (x : String × ℚ) : List (String × ℚ) → List (String × ℚ)
  | [] => [x]
  | y :: ys => if y.2 ≤ x.2 then x :: y :: ys else y :: insertDescending x ys

/-- Stable descending sort by score, the effect of Python's
sorted(scores.items(), key, reverse=True). -/
def sortDescending : List (String × ℚ) → List (String × ℚ)
  | [] => []
  | x :: xs => insertDescending x (sortDescending xs)

/-- AdaptiveTestingService._recalculate_profile_aggregates: None models the
early return when no domain has a score (no update is written); otherwise
the written triple (composite_score, strengths, growth_areas).  strengths
is the first two of the descending sort filtered to positive scores,
growth_areas the last two filtered to scores strictly below the composite;
with fewer than two scored domains both lists are empty.  The composite
percentile written alongside is modelled separately by
recalcCompositePercentile since it leaves the rationals. -/
def recalcProfileAggregates (p : CognitiveProfile) :
    Option (ℚ × List String × List String) :=
  let scores := domainScores p
  if scores.isEmpty then none
  else
    let compositeScore := (scores.map (fun d => d.2)).sum / scores.length
    if 2 ≤ scores.length then
      let sortedDomains := sortDescending scores
      let strengths := ((sortedDomains.take 2).filter
        (fun d => decide (0 < d.2))).map (fun d => d.1)
      let growthAreas := ((sortedDomains.drop (sortedDomains.length - 2)).filter
        (fun d => decide (d.2 < compositeScore))).map (fun d => d.1)
      some (compositeScore, strengths, growthAreas)
    else some (compositeScore, [], [])

/-- The composite percentile written by _recalculate_profile_aggregates,
int(_theta_to_percentile(composite_score)). -/
noncomputable def recalcCompositePercentile (compositeScore : ℚ) : ℤ :=
  pyInt (thetaToPercentile (compositeScore : ℝ))

/-- Composite score as the specification words it: the arithmetic mean over
all domains with a recorded score. -/
def specCompositeScore (p : CognitiveProfile) : ℚ :=
  ((domainScores p).map (fun d => d.2)).sum / (domainScores p).length

/-- Strengths as the specification words them: with at least two scored
domains, the top two domains by score that have positive score; otherwise
empty. -/
def specStrengths (p : CognitiveProfile) : List String :=
  if 2 ≤ (domainScores p).length then
    (((sortDescending (domainScores p)).take 2).filter
      (fun d => decide (0 < d.2))).map (fun d => d.1)
  else []

/-- Growth areas as the specification words them: with at least two scored
domains, the bottom two domains whose score is strictly below the
composite; otherwise empty. -/
def specGrowthAreas (p : CognitiveProfile) : List String :=
  if 2 ≤ (domainScores p).length then
    (((sortDescending (domainScores p)).drop
        ((sortDescending (domainScores p)).length - 2)).filter
      (fun d => decide (d.2 < specCompositeScore p))).map (fun d => d.1)
  else []

/-- The profile of the specification's aggregation scenario:
math 80, logic 60, verbal 40, the other two domains unscored. -/
def exampleProfile : CognitiveProfile :=
  { mathScore := some 80
    logicScore := some 60
    verbalScore := some 40
    spatialScore := none
    memoryScore := none }

noncomputable section

/-- Concrete item used by the finite scenarios: a plain math item with ideal
parameters (a = 1, b = 0, c = 0) eligible for every age in the scenarios. -/
def exItem1 : TestItem :=
  { id := "i-1"
    domain := "math"
    active := true
    minAgeMonths := 0
    maxAgeMonths := 100
    discrimination := 1
    difficulty := 0
    guessing := 0
    correctAnswer := Answer.scalar "a" }

/-- Second concrete item, identical to exItem1 apart from its id. -/
def exItem2 : TestItem :=
  { exItem1 with id := "i-2" }

/-- Concrete prior response row: item i-1 answered correctly. -/
def exRow1 : ResponseRow :=
  { itemId := "i-1", isCorrect := true, item := exItem1 }

/-- Concrete session that has already completed: status completed after one
administered item, at the initial estimates. -/
def exAssessmentCompleted : Assessment :=
  { id := "a-1"
    childId := "c-1"
    domain := "math"
    abilityEstimate := 0
    standardError := 1
    itemsAdministered := 1
    status := "completed" }

/-- Concrete in-progress session, identical to exAssessmentCompleted apart
from its status. -/
def exAssessmentInProgress : Assessment :=
  { exAssessmentCompleted with status := "in_progress" }

/-- Ability value exhibiting the percentile rounding divergence; its z-score
argument to erf is exactly 7/100. -/
def thetaCx : ℝ := 7 * Real.sqrt 2 / 100

end

/-! Helper lemmas. -/

lemma itemInformation_nonneg (theta a b c : ℝ) :
    0 ≤ itemInformation theta a b c := by
  simp only [itemInformation]
  by_cases h : 0 < probabilityCorrect theta a b c ∧ 0 < 1 - probabilityCorrect theta a b c
  · rw [if_pos h]
    exact div_nonneg (sq_nonneg _) (mul_pos h.1 h.2).le
  · rw [if_neg h]

lemma one_le_totalInformation (theta : ℝ) (items : List TestItem) :
    1 ≤ totalInformation theta items := by
  unfold totalInformation
  have h : 0 ≤ (items.map (fun it =>
      itemInformation theta it.discrimination it.difficulty it.guessing)).sum := by
    apply List.sum_nonneg
    intro x hx
    simp only [List.mem_map] at hx
    obtain ⟨it, -, rfl⟩ := hx
    exact itemInformation_nonneg theta it.discrimination it.difficulty it.guessing
  linarith

/-- Claim C9: with an empty response list the estimator returns exactly the
prior and the initial standard error of 1. -/
theorem C9_estimate_empty (prior : ℝ) :
    estimateAbility [] [] prior = (prior, 1) := by
  norm_num [estimateAbility, INITIAL_SE]

/-- Claim C6: for discrimination a above 0 and guessing c in [0,1) the 3PL
response probability is strictly increasing in theta (hence non-decreasing),
and for every real theta its value lies in [c, 1). -/
theorem C6_probability_monotone_bounded (a b c : ℝ)
    (ha : 0 < a) (hc0 : 0 ≤ c) (hc1 : c < 1) :
    StrictMono (fun theta => probabilityCorrect theta a b c)
    ∧ ∀ theta, c ≤ probabilityCorrect theta a b c
        ∧ probabilityCorrect theta a b c < 1 := by
  constructor
  · intro x y hxy
    simp only [probabilityCorrect]
    have h1 : Real.exp (-(a * (y - b))) < Real.exp (-(a * (x - b))) := by
      apply Real.exp_lt_exp.mpr
      nlinarith
    have h2 : 0 < 1 + Real.exp (-(a * (y - b))) := by positivity
    have h3 : (1 - c) / (1 + Real.exp (-(a * (x - b))))
        < (1 - c) / (1 + Real.exp (-(a * (y - b)))) :=
      div_lt_div_of_pos_left (by linarith) h2 (by linarith)
    linarith
  · intro theta
    simp only [probabilityCorrect]
    constructor
    · have h : 0 < (1 - c) / (1 + Real.exp (-(a * (theta - b)))) :=
        div_pos (by linarith) (by positivity)
      linarith
    · have h : (1 - c) / (1 + Real.exp (-(a * (theta - b)))) < 1 - c := by
        apply div_lt_self (by linarith)
        have := Real.exp_pos (-(a * (theta - b)))
        linarith
      linarith

/-- Witness for C6 at the concrete parameters a = 1, b = 0, c = 0. -/
theorem C6_witness :
    (0:ℝ) < 1 ∧ (0:ℝ) ≤ 0 ∧ (0:ℝ) < 1
    ∧ (StrictMono (fun theta => probabilityCorrect theta 1 0 0)
      ∧ ∀ theta, (0:ℝ) ≤ probabilityCorrect theta 1 0 0
          ∧ probabilityCorrect theta 1 0 0 < 1) :=
  ⟨one_pos, le_refl 0, one_pos,
    C6_probability_monotone_bounded 1 0 0 one_pos (le_refl 0) one_pos⟩

/-- Claim C10: on any non-empty response list whose items have a above 0 and
c in [0,1), the returned standard error lies in (0, 1]: total information is
at least 1 (prior precision 1 plus non-negative item information terms), the
standard error equals 1/sqrt of it, and therefore the fallback for
non-positive information is not taken. -/
theorem C10_se_in_unit_interval (responses : List Bool) (items : List TestItem)
    (prior : ℝ) (hne : responses ≠ [])
    (hparams : ∀ it ∈ items,
      0 < it.discrimination ∧ 0 ≤ it.guessing ∧ it.guessing < 1) :
    1 ≤ totalInformation (estimateAbility responses items prior).1 items
    ∧ (estimateAbility responses items prior).2
        = 1 / Real.sqrt (totalInformation (estimateAbility responses items prior).1 items)
    ∧ 0 < (estimateAbility responses items prior).2
    ∧ (estimateAbility responses items prior).2 ≤ 1 := by
  obtain ⟨r, rs, rfl⟩ : ∃ r rs, responses = r :: rs := by
    cases responses with
    | nil => exact absurd rfl hne
    | cons r rs => exact ⟨r, rs, rfl⟩
  simp only [estimateAbility, List.isEmpty_cons, Bool.false_eq_true, if_false]
  have hinfo : 1 ≤ totalInformation
      (max (-3) (min 3 (newtonLoop (r :: rs) items 20 prior))) items :=
    one_le_totalInformation _ items
  rw [if_pos (by linarith)]
  have hsq : 0 < Real.sqrt (totalInformation
      (max (-3) (min 3 (newtonLoop (r :: rs) items 20 prior))) items) :=
    Real.sqrt_pos.mpr (by linarith)
  refine ⟨hinfo, rfl, div_pos one_pos hsq, ?_⟩
  rw [div_le_one hsq]
  exact Real.one_le_sqrt.mpr hinfo

/-- Witness for C10: one correct response to the concrete item exItem1. -/
theorem C10_witness :
    ([true] ≠ ([] : List Bool))
    ∧ (∀ it ∈ [exItem1],
        0 < it.discrimination ∧ 0 ≤ it.guessing ∧ it.guessing < 1)
    ∧ (1 ≤ totalInformation (estimateAbility [true] [exItem1] 0).1 [exItem1]
      ∧ (estimateAbility [true] [exItem1] 0).2
          = 1 / Real.sqrt (totalInformation (estimateAbility [true] [exItem1] 0).1 [exItem1])
      ∧ 0 < (estimateAbility [true] [exItem1] 0).2
      ∧ (estimateAbility [true] [exItem1] 0).2 ≤ 1) := by
  have hp : ∀ it ∈ [exItem1],
      0 < it.discrimination ∧ 0 ≤ it.guessing ∧ it.guessing < 1 := by
    intro it hit
    rw [List.mem_singleton] at hit
    subst hit
    refine ⟨one_pos, le_refl 0, one_pos⟩
  exact ⟨by simp, hp, C10_se_in_unit_interval [true] [exItem1] 0 (by simp) hp⟩

/-- Claim C7: the correctness rule of submit_response, characterized: a list
response is correct exactly when the correct answer is a list with the same
elements as a set, and a scalar response is correct exactly when the correct
answer is the same scalar. -/
theorem C7_correctness_rule (response correctAnswer : Answer) :
    answerCorrect response correctAnswer = true
    ↔ ((∃ l m, response = Answer.list l ∧ correctAnswer = Answer.list m
          ∧ ∀ x, x ∈ l ↔ x ∈ m)
      ∨ (∃ s t, response = Answer.scalar s ∧ correctAnswer = Answer.scalar t
          ∧ s = t)) := by
  cases response with
  | scalar s =>
    cases correctAnswer with
    | scalar t => simp [answerCorrect]
    | list m => simp [answerCorrect]
  | list l =>
    cases correctAnswer with
    | scalar t => simp [answerCorrect]
    | list m =>
      rw [show answerCorrect (Answer.list l) (Answer.list m) = sameElements l m from rfl]
      constructor
      · intro h
        simp only [sameElements, Bool.and_eq_true, List.all_eq_true] at h
        left
        refine ⟨l, m, rfl, rfl, ?_⟩
        intro x
        constructor
        · intro hx
          simpa [List.contains, List.elem_iff] using h.1 x hx
        · intro hx
          simpa [List.contains, List.elem_iff] using h.2 x hx
      · rintro (⟨l', m', hl, hm, hiff⟩ | ⟨s, t, hs, -, -⟩)
        · injection hl with hl'
          injection hm with hm'
          subst hl'
          subst hm'
          simp only [sameElements, Bool.and_eq_true, List.all_eq_true]
          constructor
          · intro x hx
            simpa [List.contains, List.elem_iff] using (hiff x).mp hx
          · intro x hx
            simpa [List.contains, List.elem_iff] using (hiff x).mpr hx
        · simp at hs

lemma foldlBest_mem (theta : ℝ) (l : List TestItem) :
    ∀ (acc : Option TestItem × ℝ) (it : TestItem),
      (List.foldl (fun acc it =>
          let info := itemInformation theta it.discrimination it.difficulty it.guessing
          if acc.2 < info then (some it, info) else acc) acc l).1 = some it →
      acc.1 = some it ∨ it ∈ l := by
  induction l with
  | nil =>
    intro acc it h
    exact Or.inl h
  | cons x xs ih =>
    intro acc it h
    rw [List.foldl_cons] at h
    rcases ih _ it h with h' | h'
    · dsimp only at h'
      by_cases hc : acc.2 < itemInformation theta x.discrimination x.difficulty x.guessing
      · rw [if_pos hc] at h'
        simp only [Option.some.injEq] at h'
        exact Or.inr (by rw [← h']; exact List.mem_cons_self x xs)
      · rw [if_neg hc] at h'
        exact Or.inl h'
    · exact Or.inr (List.mem_cons_of_mem x h')

lemma pickMaxInfo_mem (theta : ℝ) (items : List TestItem) (it : TestItem)
    (h : pickMaxInfo theta items = some it) : it ∈ items := by
  unfold pickMaxInfo at h
  rcases foldlBest_mem theta items (none, -1) it h with h' | h'
  · simp at h'
  · exact h'

/-- Claim C4: the item selector never returns an item whose id is among the
used ids, also when the result comes from the second, age-widened query. -/
theorem C4_select_excludes_used (table : List TestItem) (theta : ℝ) (age : Int)
    (domain : String) (used : List String) :
    Option.all (fun it => !(used.contains it.id))
      (selectNextItem table theta age domain used) = true := by
  unfold selectNextItem
  dsimp only
  set candidates :=
    if ((bankQuery table domain age age).filter
        (fun it => !(used.contains it.id))).isEmpty then
      (bankQuery table domain (age + 6) (age - 6)).filter
        (fun it => !(used.contains it.id))
    else
      (bankQuery table domain age age).filter
        (fun it => !(used.contains it.id)) with hcand
  have hsub : ∀ it ∈ candidates, (!(used.contains it.id)) = true := by
    intro it hit
    rw [hcand] at hit
    split at hit
    · exact (List.mem_filter.mp hit).2
    · exact (List.mem_filter.mp hit).2
  split
  · rfl
  · cases hp : pickMaxInfo theta candidates with
    | none => rfl
    | some it =>
      have := hsub it (pickMaxInfo_mem theta candidates it hp)
      simpa [Option.all] using this

lemma submitResponse_ok (a : Assessment) (item : TestItem)
    (prev : List ResponseRow) (age : Int) (table : List TestItem)
    (itemId : String) (response : Answer) (rt : Int) :
    submitResponse (some a) (some item) prev age table itemId response rt
      = .ok (submitBody a item prev age table itemId response rt) := rfl

/-- Claim C1 does not hold; what the source does instead: submit_response
never reads the session's status, so on a loaded session and item it always
succeeds — the outcome is identical for any status value, in particular for
a completed session — and it overwrites ability_estimate, standard_error and
items_administered, the latter with the prior response count plus one.  The
source has no InvalidState failure at all; its only failures are the two
not-found errors. -/
theorem C1_amended_status_ignored (a : Assessment) (s : String) (item : TestItem)
    (prev : List ResponseRow) (age : Int) (table : List TestItem)
    (itemId : String) (response : Answer) (rt : Int) :
    (submitResponse (some a) (some item) prev age table itemId response rt).isOk = true
    ∧ submitResponse (some { a with status := s }) (some item) prev age table
        itemId response rt
      = submitResponse (some a) (some item) prev age table itemId response rt
    ∧ (submitResponse (some a) (some item) prev age table itemId response rt).map
        (fun r => r.itemSequence) = Except.ok (prev.length + 1) := by
  refine ⟨rfl, ?_, rfl⟩
  cases a
  rfl

/-- Counterexample to claim C1: submitting against the concrete completed
session succeeds (no failure of any kind, hence no InvalidState) and writes
items_administered = 2, a change of the session state. -/
theorem C1_counterexample :
    exAssessmentCompleted.status = "completed"
    ∧ exAssessmentCompleted.itemsAdministered = 1
    ∧ (submitResponse (some exAssessmentCompleted) (some exItem2) [exRow1] 36 []
        "i-2" (Answer.scalar "a") 500).isOk = true
    ∧ (submitResponse (some exAssessmentCompleted) (some exItem2) [exRow1] 36 []
        "i-2" (Answer.scalar "a") 500).map (fun r => r.itemSequence)
      = Except.ok 2 :=
  ⟨rfl, rfl, rfl, rfl⟩

/-- Claim C2 does not hold; what the source does instead: submit_response
never compares the submitted item id against the session's previous
response records, so a duplicate id is processed like any other response:
the call succeeds and items_administered is advanced to the prior response
count plus one. -/
theorem C2_amended_duplicate_accepted (a : Assessment) (item : TestItem)
    (prev : List ResponseRow) (age : Int) (table : List TestItem)
    (itemId : String) (response : Answer) (rt : Int)
    (hdup : itemId ∈ prev.map (fun r => r.itemId)) :
    (submitResponse (some a) (some item) prev age table itemId response rt).isOk = true
    ∧ (submitResponse (some a) (some item) prev age table itemId response rt).map
        (fun r => r.itemSequence) = Except.ok (prev.length + 1) :=
  ⟨rfl, rfl⟩

/-- Witness for the amended C2 at the concrete duplicate submission. -/
theorem C2_amended_witness :
    ("i-1" ∈ [exRow1].map (fun r => r.itemId))
    ∧ ((submitResponse (some exAssessmentInProgress) (some exItem1) [exRow1] 36 []
        "i-1" (Answer.scalar "a") 500).isOk = true
      ∧ (submitResponse (some exAssessmentInProgress) (some exItem1) [exRow1] 36 []
          "i-1" (Answer.scalar "a") 500).map (fun r => r.itemSequence)
        = Except.ok 2) :=
  ⟨List.mem_cons_self _ _,
    C2_amended_duplicate_accepted exAssessmentInProgress exItem1 [exRow1] 36 []
      "i-1" (Answer.scalar "a") 500 (List.mem_cons_self _ _)⟩

/-- Counterexample to claim C2: submitting the already-answered item id i-1
against the concrete in-progress session is not rejected — it succeeds and
items_administered advances from 1 to 2. -/
theorem C2_counterexample :
    ("i-1" ∈ [exRow1].map (fun r => r.itemId))
    ∧ exAssessmentInProgress.itemsAdministered = 1
    ∧ (submitResponse (some exAssessmentInProgress) (some exItem1) [exRow1] 40 []
        "i-1" (Answer.scalar "b") 700).isOk = true
    ∧ (submitResponse (some exAssessmentInProgress) (some exItem1) [exRow1] 40 []
        "i-1" (Answer.scalar "b") 700).map (fun r => r.itemSequence)
      = Except.ok 2 :=
  ⟨List.mem_cons_self _ _, rfl, rfl, rfl⟩

/-- Claim C5: after a submitted response the stopping rule is evaluated in
priority order — max_items at 30 administered items, then min_se past 10
items with se below 0.3, then the item selector called with every answered
item id including the current one, stopping with no_items exactly when it
returns nothing and otherwise continuing with its item. -/
theorem C5_stopping_priority (a : Assessment) (item : TestItem)
    (prev : List ResponseRow) (age : Int) (table : List TestItem)
    (itemId : String) (response : Answer) (rt : Int) :
    (submitResponse (some a) (some item) prev age table itemId response rt).map
        (fun r => (r.isComplete, r.stoppingReason, r.nextItem))
      = Except.ok (stoppingRuleSpec (prev.length + 1)
          (estimateAbility
            (prev.map (fun r => r.isCorrect) ++ [answerCorrect response item.correctAnswer])
            (prev.map (fun r => r.item) ++ [item]) a.abilityEstimate).2
          (selectNextItem table
            (estimateAbility
              (prev.map (fun r => r.isCorrect) ++ [answerCorrect response item.correctAnswer])
              (prev.map (fun r => r.item) ++ [item]) a.abilityEstimate).1
            age a.domain (prev.map (fun r => r.itemId) ++ [itemId]))) := by
  rw [submitResponse_ok]
  show Except.ok _ = Except.ok _
  congr 1
  simp only [submitBody, stoppingRuleSpec, MIN_ITEMS, MAX_ITEMS, TARGET_SE]
  by_cases h30 : 30 ≤ prev.length + 1
  · rw [if_pos h30, if_pos h30]
    rfl
  · rw [if_neg h30, if_neg h30]
    by_cases h10 : 10 ≤ prev.length + 1
    · rw [if_pos h10]
      by_cases hse : (estimateAbility
          (prev.map (fun r => r.isCorrect) ++ [answerCorrect response item.correctAnswer])
          (prev.map (fun r => r.item) ++ [item]) a.abilityEstimate).2 < 0.3
      · rw [if_pos hse, if_pos ⟨h10, hse⟩]
        rfl
      · rw [if_neg hse, if_neg (by
          intro hcon
          exact hse hcon.2)]
        cases hsel : selectNextItem table
            (estimateAbility
              (prev.map (fun r => r.isCorrect) ++ [answerCorrect response item.correctAnswer])
              (prev.map (fun r => r.item) ++ [item]) a.abilityEstimate).1
            age a.domain (prev.map (fun r => r.itemId) ++ [itemId]) with
        | none => rfl
        | some it => rfl
    · rw [if_neg h10, if_neg (by
        intro hcon
        exact h10 hcon.1)]
      cases hsel : selectNextItem table
          (estimateAbility
            (prev.map (fun r => r.isCorrect) ++ [answerCorrect response item.correctAnswer])
            (prev.map (fun r => r.item) ++ [item]) a.abilityEstimate).1
          age a.domain (prev.map (fun r => r.itemId) ++ [itemId]) with
      | none => rfl
      | some it => rfl

/-- Claim C8: the aggregator writes the arithmetic mean of the recorded
scores as composite; with at least two scored domains the strengths are the
top two domains with positive score and the growth areas the bottom two
with score strictly below the composite, and with fewer than two both lists
are empty; and the scenario math 80 / logic 60 / verbal 40 produces
composite 60, strengths math and logic, growth areas verbal only. -/
theorem C8_profile_aggregation :
    recalcProfileAggregates exampleProfile = some (60, ["math", "logic"], ["verbal"])
    ∧ ∀ p, recalcProfileAggregates p =
        if (domainScores p).isEmpty then none
        else some (specCompositeScore p, specStrengths p, specGrowthAreas p) := by
  constructor
  · norm_num [recalcProfileAggregates, domainScores, exampleProfile,
      sortDescending, insertDescending, List.filterMap]
  · intro p
    simp only [recalcProfileAggregates, specCompositeScore, specStrengths,
      specGrowthAreas]
    by_cases he : (domainScores p).isEmpty
    · rw [if_pos he, if_pos he]
    · rw [if_neg he, if_neg he]
      by_cases h2 : 2 ≤ (domainScores p).length
      · rw [if_pos h2, if_pos h2, if_pos h2]
      · rw [if_neg h2, if_neg h2, if_neg h2]

lemma integrable_exp_neg_sq (a b : ℝ) :
    IntervalIntegrable (fun t : ℝ => Real.exp (-(t ^ 2)))
      MeasureTheory.volume a b :=
  (Real.continuous_exp.comp (by continuity)).intervalIntegrable a b

lemma integral_exp_neg_sq_upper :
    (∫ t in (0:ℝ)..(7/100), Real.exp (-(t ^ 2))) ≤ 7/100 := by
  have h1 : (∫ t in (0:ℝ)..(7/100), Real.exp (-(t ^ 2)))
      ≤ ∫ _ in (0:ℝ)..(7/100), (1:ℝ) := by
    apply intervalIntegral.integral_mono_on (by norm_num)
      (integrable_exp_neg_sq 0 (7/100)) intervalIntegrable_const
    intro t ht
    calc Real.exp (-(t ^ 2)) ≤ Real.exp 0 :=
          Real.exp_le_exp.mpr (by nlinarith [sq_nonneg t])
      _ = 1 := Real.exp_zero
  have h2 : (∫ _ in (0:ℝ)..(7/100), (1:ℝ)) = 7/100 := by simp
  linarith

lemma integral_exp_neg_sq_lower :
    (209657/3000000 : ℝ) ≤ ∫ t in (0:ℝ)..(7/100), Real.exp (-(t ^ 2)) := by
  have h1 : (∫ t in (0:ℝ)..(7/100), (1 - t ^ 2))
      ≤ ∫ t in (0:ℝ)..(7/100), Real.exp (-(t ^ 2)) := by
    apply intervalIntegral.integral_mono_on (by norm_num)
      ((by continuity : Continuous fun t : ℝ => 1 - t ^ 2).intervalIntegrable 0 (7/100))
      (integrable_exp_neg_sq 0 (7/100))
    intro t ht
    have h := Real.add_one_le_exp (-(t ^ 2))
    linarith
  have h2 : (∫ t in (0:ℝ)..(7/100), (1 - t ^ 2)) = 209657/3000000 := by
    rw [intervalIntegral.integral_sub intervalIntegrable_const
      (intervalIntegral.intervalIntegrable_pow 2)]
    norm_num [integral_pow]
  linarith

lemma erf_seven_hundredths_bounds :
    7/100 < erf (7/100) ∧ erf (7/100) < 2/25 := by
  have hsq0 : 0 < Real.sqrt Real.pi := Real.sqrt_pos.mpr Real.pi_pos
  have hs_lt : Real.sqrt Real.pi < 209657/105000 := by
    rw [Real.sqrt_lt' (by norm_num)]
    calc Real.pi < 3.15 := Real.pi_lt_d2
      _ < (209657/105000) ^ 2 := by norm_num
  have hs_gt : (7/4 : ℝ) < Real.sqrt Real.pi := by
    rw [Real.lt_sqrt (by norm_num : (0:ℝ) ≤ 7/4)]
    nlinarith [Real.pi_gt_d2]
  have hIlow := integral_exp_neg_sq_lower
  have hIhigh := integral_exp_neg_sq_upper
  constructor
  · calc (7/100 : ℝ) = 2/(209657/105000) * (209657/3000000) := by norm_num
      _ < 2/Real.sqrt Real.pi * (209657/3000000) := by
          apply mul_lt_mul_of_pos_right _ (by norm_num)
          exact div_lt_div_of_pos_left (by norm_num) hsq0 hs_lt
      _ ≤ 2/Real.sqrt Real.pi * ∫ t in (0:ℝ)..(7/100), Real.exp (-(t ^ 2)) :=
          mul_le_mul_of_nonneg_left hIlow (by positivity)
      _ = erf (7/100) := by rw [erf]
  · calc erf (7/100) = 2/Real.sqrt Real.pi * ∫ t in (0:ℝ)..(7/100), Real.exp (-(t ^ 2)) := by
          rw [erf]
      _ ≤ 2/Real.sqrt Real.pi * (7/100) :=
          mul_le_mul_of_nonneg_left hIhigh (by positivity)
      _ < 2/(7/4) * (7/100) := by
          apply mul_lt_mul_of_pos_right _ (by norm_num)
          exact div_lt_div_of_pos_left (by norm_num) (by norm_num) hs_gt
      _ = 2/25 := by norm_num

lemma thetaCx_div_sqrt_two : thetaCx / Real.sqrt 2 = 7/100 := by
  have h2 : Real.sqrt 2 ≠ 0 := by positivity
  unfold thetaCx
  field_simp
  ring

lemma thetaToPercentile_thetaCx_bounds :
    53.5 < thetaToPercentile thetaCx ∧ thetaToPercentile thetaCx < 54 := by
  unfold thetaToPercentile
  rw [thetaCx_div_sqrt_two]
  obtain ⟨h1, h2⟩ := erf_seven_hundredths_bounds
  constructor
  · nlinarith
  · nlinarith

/-- Counterexample to claim C3: at the ability value thetaCx the source's
percentile (int truncation) is 53 while round of thetaToPercentile is 54. -/
theorem C3_counterexample :
    (completeAssessment thetaCx).percentile = 53
    ∧ round (thetaToPercentile thetaCx) = 54
    ∧ (completeAssessment thetaCx).percentile ≠ round (thetaToPercentile thetaCx) := by
  obtain ⟨hlo, hhi⟩ := thetaToPercentile_thetaCx_bounds
  have hfloor : Int.floor (thetaToPercentile thetaCx) = 53 := by
    rw [Int.floor_eq_iff]
    constructor
    · push_cast
      nlinarith
    · push_cast
      nlinarith
  have hround : round (thetaToPercentile thetaCx) = 54 := by
    rw [round_eq, Int.floor_eq_iff]
    constructor
    · push_cast
      nlinarith
    · push_cast
      nlinarith
  have hperc : (completeAssessment thetaCx).percentile = 53 := by
    show pyInt (thetaToPercentile thetaCx) = 53
    rw [pyInt, if_pos (by nlinarith : (0:ℝ) ≤ thetaToPercentile thetaCx)]
    exact hfloor
  refine ⟨hperc, hround, ?_⟩
  rw [hperc, hround]
  decide

/-- Claim C3 amended: on completion the raw score is (theta+3)/6*100 as
claimed, but the percentile is thetaToPercentile(theta) truncated toward
zero (Python int()), not rounded to the nearest integer; and whenever
submit_response stops the session it records exactly these completion
values at the final ability estimate. -/
theorem C3_amended_truncated_percentile (theta : ℝ) :
    (completeAssessment theta).rawScore = (theta + 3) / 6 * 100
    ∧ (completeAssessment theta).percentile = pyInt (thetaToPercentile theta)
    ∧ ∀ (a : Assessment) (item : TestItem) (prev : List ResponseRow) (age : Int)
        (table : List TestItem) (itemId : String) (response : Answer) (rt : Int),
        (submitBody a item prev age table itemId response rt).completion
          = if (submitBody a item prev age table itemId response rt).isComplete
            then some (completeAssessment
              (submitBody a item prev age table itemId response rt).newTheta)
            else none := by
  refine ⟨rfl, rfl, ?_⟩
  intro a item prev age table itemId response rt
  rfl

end AdaptiveTesting
